import Mathlib

/-!
Verification of the `baby_cry_detection.monitor` runtime decision and
calibration control engine.

Modelling conventions (shallow embedding of the Python source):
* Python `float` scores and thresholds are modelled as exact rationals `ℚ`:
  every property checked here is a matter of ordered-field comparisons, not
  of binary rounding.
* Python `int` is modelled as `ℤ`.
* Wall-clock time (`datetime.utcnow()`) is passed explicitly as a rational
  number of seconds; `timedelta(seconds = c)` is the rational `c`.
* A `collections.deque` with `maxlen = m` is a `List` that keeps its `m`
  most recent elements, newest last.
* Fallible Python code (raising statements) is embedded with `Except`.
-/

namespace BabyCry

/-! ## backends/base.py — `DetectionResult` -/

/-- Embedding of `DetectionResult` from `backends/base.py`: three scores per window. -/
structure DetectionResult where
  primary_score : ℚ
  baby_score : ℚ
  cat_score : ℚ
deriving DecidableEq

/-! ## decision.py — the stage-2 decision policy -/

/-- Embedding of `passes_verifier_with_thresholds` from `decision.py`, line for line:
fail when `baby_score < baby_threshold`; fail when
`baby_score - cat_weight * cat_score < margin_threshold`; otherwise pass
unless `cat_score >= cat_suppress_threshold and baby_score <= cat_score`. -/
def passes_verifier_with_thresholds (result : DetectionResult)
    (baby_threshold cat_weight margin_threshold cat_suppress_threshold : ℚ) : Bool :=
  if result.baby_score < baby_threshold then false
  else
    let margin := result.baby_score - cat_weight * result.cat_score
    if margin < margin_threshold then false
    else
      let cat_dominates :=
        decide (cat_suppress_threshold ≤ result.cat_score)
          && decide (result.baby_score ≤ result.cat_score)
      !cat_dominates

/-- The decision policy exactly as the specification words it (§4.1, rules
evaluated in order); the dominance rule is the spec's long form
`confusable ≥ catSuppress AND NOT(target > confusable AND target ≥ babyThreshold)`.
This definition follows the SPEC, to be compared with
`passes_verifier_with_thresholds`, which follows the source. -/
def specPassesRules (result : DetectionResult)
    (baby_threshold cat_weight margin_threshold cat_suppress_threshold : ℚ) : Bool :=
  if result.baby_score < baby_threshold then false
  else if result.baby_score - cat_weight * result.cat_score < margin_threshold then false
  else if cat_suppress_threshold ≤ result.cat_score
          ∧ ¬(result.cat_score < result.baby_score ∧ baby_threshold ≤ result.baby_score) then false
  else true

/-! ## gating.py — the stateful debounce / cooldown gate -/

/-- Embedding of `GatingDecision` from `gating.py`. -/
structure GatingDecision where
  candidate : Bool
  confirmed : Bool
  suppressed_by_cat : Bool
  ready_for_alert : Bool
deriving DecidableEq

/-- The mutable fields of a `GatingEngine` instance (`gating.py`).
`history` keeps the newest entry last, as a deque with `maxlen = confirm_m`. -/
structure GatingEngine where
  primary_threshold : ℚ
  baby_threshold : ℚ
  cat_weight : ℚ
  margin_threshold : ℚ
  cat_suppress_threshold : ℚ
  confirm_n : ℤ
  confirm_m : ℤ
  cooldown_seconds : ℤ
  history : List Bool
  last_alert_at : Option ℚ
deriving DecidableEq

/-- The last `n` elements of a list, in order (Python `list[-n:]`, and the
retention behaviour of `deque(maxlen = n)`). -/
def takeLast (n : ℕ) (l : List Bool) : List Bool :=
  l.drop (l.length - n)

/-- Embedding of `GatingEngine.__init__`: empty history, no last alert,
`primary_threshold` defaulting to `0.5`. -/
def GatingEngine.init (baby_threshold cat_weight margin_threshold cat_suppress_threshold : ℚ)
    (confirm_n confirm_m cooldown_seconds : ℤ) (primary_threshold : ℚ := 0.5) : GatingEngine :=
  { primary_threshold := primary_threshold
    baby_threshold := baby_threshold
    cat_weight := cat_weight
    margin_threshold := margin_threshold
    cat_suppress_threshold := cat_suppress_threshold
    confirm_n := confirm_n
    confirm_m := confirm_m
    cooldown_seconds := cooldown_seconds
    history := []
    last_alert_at := none }

/-- Embedding of `GatingEngine.evaluate` from `gating.py`; `now` is `datetime.utcnow()`
passed explicitly, in seconds. Returns the updated engine and the decision. -/
def GatingEngine.evaluate (s : GatingEngine) (now primary_score baby_score cat_score : ℚ) :
    GatingEngine × GatingDecision :=
  let candidate :=
    decide (s.primary_threshold ≤ primary_score)
      && decide (s.baby_threshold ≤ baby_score)
      && decide (s.margin_threshold ≤ baby_score - s.cat_weight * cat_score)
  let suppressed_by_cat :=
    decide (s.cat_suppress_threshold ≤ cat_score)
      && !(decide (cat_score < baby_score) && decide (s.baby_threshold ≤ baby_score))
  let history := takeLast s.confirm_m.toNat (s.history ++ [candidate && !suppressed_by_cat])
  let confirmed := decide (s.confirm_n ≤ (history.count true : ℤ))
  let cooldown_ready :=
    match s.last_alert_at with
    | none => true
    | some t => decide ((s.cooldown_seconds : ℚ) ≤ now - t)
  let ready_for_alert := confirmed && !suppressed_by_cat && cooldown_ready
  let last_alert_at := if ready_for_alert then some now else s.last_alert_at
  ({ s with history := history, last_alert_at := last_alert_at },
   { candidate := candidate
     confirmed := confirmed
     suppressed_by_cat := suppressed_by_cat
     ready_for_alert := ready_for_alert })

/-- Embedding of `GatingEngine.update_runtime` from `gating.py`: hot-swaps any subset of
`primary_threshold`, `confirm_n`, `confirm_m`, `cooldown_seconds`; a changed
`confirm_m` rebuilds the deque from the most recent `list[-new:]` entries. -/
def GatingEngine.update_runtime (s : GatingEngine) (primary_threshold : Option ℚ)
    (confirm_n confirm_m cooldown_seconds : Option ℤ) : GatingEngine :=
  let s1 := match primary_threshold with
    | none => s
    | some v => { s with primary_threshold := v }
  let s2 := match confirm_n with
    | none => s1
    | some v => { s1 with confirm_n := max 1 v }
  let s3 := match confirm_m with
    | none => s2
    | some v =>
        let new_confirm_m := max 1 v
        if new_confirm_m ≠ s2.confirm_m then
          { s2 with
              history := takeLast new_confirm_m.toNat s2.history
              confirm_m := new_confirm_m }
        else s2
  match cooldown_seconds with
  | none => s3
  | some v => { s3 with cooldown_seconds := max 0 v }

/-! ## calibration.py — the persisted calibration control store

The persisted control file is modelled by `CalStore`: the file is absent,
holds text `json.loads` rejects, or holds text that parses to the Python
value `PyValue`. The byte-level JSON parser itself is the Python standard
library, outside this repository; its outcome (failure or a parsed value)
is the model's input. -/

/-- A Python value as produced by `json.loads` (object keys are strings). -/
inductive PyValue where
  | null
  | bool (b : Bool)
  | int (n : ℤ)
  | float (q : ℚ)
  | str (s : String)
  | list (xs : List PyValue)
  | dict (entries : List (String × PyValue))

/-- State of the persisted control file. -/
inductive CalStore where
  | absent
  | unparsable
  | parsed (v : PyValue)

/-- The expected numeric type of a tunable parameter
(`PHASE_PARAMETER_SPECS` values). -/
inductive ParamType where
  | int
  | float
deriving DecidableEq

/-- A parsed override value (`float | int` in the source). -/
inductive CalValue where
  | int (n : ℤ)
  | float (q : ℚ)
deriving DecidableEq

/-- Embedding of `CalibrationControl` from `calibration.py`; `overrides` is the dict as an
association list in insertion order. -/
structure CalibrationControl where
  active : Bool
  phase : String
  interval_seconds : ℤ
  overrides : List (String × CalValue)
deriving DecidableEq

/-- The exceptions the calibration layer can raise, named after the spec's
taxonomy: `invalidPhase` is `ValueError("phase must be phase1 or phase2")`,
`calibrationInactive` is `ValueError("calibration is not active")`,
`unknownParameter` is `ValueError("parameter not allowed for …")`,
`invalidValue` is the `ValueError` of a failed `int()`/`float()` parse or of
a negative integer, and `attributeError` is the uncaught `AttributeError` a
non-dict JSON payload triggers at `payload.get`. -/
inductive CalError where
  | attributeError
  | invalidPhase
  | calibrationInactive
  | unknownParameter (phase : String)
  | invalidValue
deriving DecidableEq

/-- Embedding of `DEFAULT_CALIBRATION_INTERVAL_SECONDS` from `calibration.py`. -/
def DEFAULT_CALIBRATION_INTERVAL_SECONDS : ℤ := 15

/-- Embedding of `PHASE_PARAMETER_SPECS` from `calibration.py`, as a lookup from phase
name to the four allowed parameters with their expected types. -/
def phaseSpec : String → Option (List (String × ParamType))
  | "phase1" => some
      [("PRIMARY_CRY_THRESHOLD", .float), ("CONFIRM_N", .int),
       ("CONFIRM_M", .int), ("ALERT_COOLDOWN_SECONDS", .int)]
  | "phase2" => some
      [("CRY_THRESHOLD", .float), ("CAT_THRESHOLD", .float),
       ("CAT_WEIGHT", .float), ("MARGIN_THRESHOLD", .float)]
  | _ => none

/-- Embedding of `PHASE_PARAMETER_SPECS[phase].get(key)`. -/
def paramSpec (phase key : String) : Option ParamType :=
  match phaseSpec phase with
  | none => none
  | some specs => (specs.find? (fun p => p.1 == key)).map Prod.snd

/-- Lower-case an ASCII letter (Python `str.lower` on the characters the
claims use). -/
def charLower (c : Char) : Char :=
  if 'A' ≤ c ∧ c ≤ 'Z' then Char.ofNat (c.toNat + 32) else c

/-- Upper-case an ASCII letter (Python `str.upper` on the characters the
claims use). -/
def charUpper (c : Char) : Char :=
  if 'a' ≤ c ∧ c ≤ 'z' then Char.ofNat (c.toNat - 32) else c

/-- ASCII whitespace (the Python `str.strip` default set, without the rare
`\f`/`\v`, which no claim uses). -/
def isSpaceChar (c : Char) : Bool :=
  c == ' ' || c == '\t' || c == '\n' || c == '\r'

/-- Python `str.lower`. -/
def pyLower (s : String) : String := String.mk (s.toList.map charLower)

/-- Python `str.upper`. -/
def pyUpper (s : String) : String := String.mk (s.toList.map charUpper)

/-- Python `str.strip()`. -/
def pyStrip (s : String) : String :=
  String.mk (((s.toList.dropWhile isSpaceChar).reverse.dropWhile isSpaceChar).reverse)

/-- All characters are ASCII digits. -/
def isDigits (cs : List Char) : Bool := cs.all (·.isDigit)

/-- Decimal value of a digit string. -/
def digitsVal (cs : List Char) : ℕ :=
  cs.foldl (fun acc c => 10 * acc + (c.toNat - 48)) 0

/-- Python `int(text)`: strip, optional sign, decimal digits. (The model
omits underscore grouping and non-decimal bases; no claim depends on them.) -/
def parsePyInt (s : String) : Option ℤ :=
  let cs := (pyStrip s).toList
  let signed : ℤ × List Char :=
    match cs with
    | '-' :: r => (-1, r)
    | '+' :: r => (1, r)
    | r => (1, r)
  if signed.2 ≠ [] ∧ isDigits signed.2 then some (signed.1 * digitsVal signed.2) else none

/-- Python `float(text)` on decimal literals: strip, optional sign, digits
with an optional fractional part, at least one digit overall. (The model
omits exponents, `inf`/`nan` and underscore grouping; no claim depends on
them.) -/
def parsePyFloat (s : String) : Option ℚ :=
  let cs := (pyStrip s).toList
  let signed : ℚ × List Char :=
    match cs with
    | '-' :: r => (-1, r)
    | '+' :: r => (1, r)
    | r => (1, r)
  match signed.2.splitOn '.' with
  | [ip] => if ip ≠ [] ∧ isDigits ip then some (signed.1 * digitsVal ip) else none
  | [ip, fp] =>
      if isDigits ip ∧ isDigits fp ∧ (ip ≠ [] ∨ fp ≠ []) then
        some (signed.1 * ((digitsVal ip : ℚ) + (digitsVal fp : ℚ) / (10 : ℚ) ^ fp.length))
      else none
  | _ => none

/-- Decimal digits of the fractional part of `q ∈ [0, 1)`, most significant
first, stopping at zero (fuel-bounded; every value a claim evaluates
terminates well within the fuel). -/
def fracDigitChars : ℕ → ℚ → List Char
  | 0, _ => []
  | fuel + 1, q =>
      if q = 0 then []
      else
        let q10 := q * 10
        Char.ofNat (48 + (⌊q10⌋).toNat) :: fracDigitChars fuel (q10 - (⌊q10⌋ : ℚ))

/-- Embedding of `str` of a non-negative float in the exact-rational model: integer part,
a dot, and the decimal fraction (Python prints at least one fractional
digit: `str(5.0) == "5.0"`). -/
def floatStrAbs (q : ℚ) : String :=
  let ds := fracDigitChars 400 (q - (⌊q⌋ : ℚ))
  toString (⌊q⌋).toNat ++ "." ++ (if ds.isEmpty then "0" else String.mk ds)

/-- Python `str` of a float, in the exact-rational model. -/
def floatStr (q : ℚ) : String :=
  if q < 0 then "-" ++ floatStrAbs (-q) else floatStrAbs q

/-- Python `str` of a JSON value. Container reprs are abbreviated: the only
uses are the phase-name comparison and numeric parsing, and a Python
list/dict repr (which starts with a bracket or brace) can satisfy neither. -/
def pyStr : PyValue → String
  | .null => "None"
  | .bool true => "True"
  | .bool false => "False"
  | .int n => toString n
  | .float q => floatStr q
  | .str s => s
  | .list _ => "[...]"
  | .dict _ => "\x7b...\x7d"

/-- Python truthiness, `bool(value)`, for JSON values. -/
def pyBool : PyValue → Bool
  | .null => false
  | .bool b => b
  | .int n => decide (n ≠ 0)
  | .float q => decide (q ≠ 0)
  | .str s => decide (s ≠ "")
  | .list xs => !xs.isEmpty
  | .dict es => !es.isEmpty

/-- Python `int(value)` on a JSON value: `Option` is the raised
`TypeError`/`ValueError`. Floats truncate toward zero; strings parse as
decimal integers; `bool` is an `int` subclass. -/
def pyIntOf : PyValue → Option ℤ
  | .int n => some n
  | .float q => if 0 ≤ q then some ⌊q⌋ else some (-⌊-q⌋)
  | .bool b => some (if b then 1 else 0)
  | .str s => parsePyInt s
  | _ => none

/-- Python `dict.get` on a parsed JSON object (`json.loads` keeps the last
occurrence of a duplicated key). -/
def dictGet (entries : List (String × PyValue)) (key : String) : Option PyValue :=
  match entries with
  | [] => none
  | (k, v) :: rest =>
      match dictGet rest key with
      | some r => some r
      | none => if k == key then some v else none

/-- Embedding of `_to_interval` from `calibration.py`: `None` falls back to the default,
an unconvertible value falls back to the default, and a converted value is
clamped to `[2, 600]`. -/
def to_interval (value : Option PyValue) (default : ℤ) : ℤ :=
  match value with
  | none => default
  | some .null => default
  | some v =>
      match pyIntOf v with
      | none => default
      | some n => max 2 (min n 600)

/-- Embedding of `_parse_typed_value` from `calibration.py`: strip the raw text, parse it
as the expected type, and reject a negative integer. -/
def parse_typed_value (raw_value : String) (expected : ParamType) : Except CalError CalValue :=
  let text := pyStrip raw_value
  match expected with
  | .int =>
      match parsePyInt text with
      | none => .error .invalidValue
      | some v => if v < 0 then .error .invalidValue else .ok (.int v)
  | .float =>
      match parsePyFloat text with
      | none => .error .invalidValue
      | some q => .ok (.float q)

/-- Embedding of `_parse_typed_value(str(value), expected)` for a stored JSON value, the
composite `_normalize_overrides` applies. The `str`/parse round trip of
Python numbers is taken as fact: `int(str(n)) == n`, `float(repr(x)) == x`,
a float's `str` never parses as `int`, and the `str` of `None`, booleans,
lists and dicts never parses as a number. String values go through the
string parsers unchanged. -/
def normValueOfPy (expected : ParamType) (v : PyValue) : Option CalValue :=
  match expected, v with
  | .int, .int n => if n < 0 then none else some (.int n)
  | .int, .str s =>
      match parsePyInt s with
      | none => none
      | some n => if n < 0 then none else some (.int n)
  | .int, _ => none
  | .float, .int n => some (.float (n : ℚ))
  | .float, .float q => some (.float q)
  | .float, .str s => (parsePyFloat s).map CalValue.float
  | .float, _ => none

/-- Python dict assignment `d[key] = v` on an association list: replace in
place when the key exists, append otherwise. -/
def assocUpsert (l : List (String × CalValue)) (key : String) (v : CalValue) :
    List (String × CalValue) :=
  if l.any (fun p => p.1 == key) then
    l.map (fun p => if p.1 == key then (p.1, v) else p)
  else l ++ [(key, v)]

/-- Python dict lookup on an association list with unique keys. -/
def assocGet (l : List (String × CalValue)) (key : String) : Option CalValue :=
  (l.find? (fun p => p.1 == key)).map Prod.snd

/-- The body of `_normalize_overrides`'s loop in `calibration.py`: upper-case
and strip the key, drop it when outside the phase's allowed set or when the
value does not parse as the expected type, store the parsed value otherwise. -/
def normalizeStep (phase : String) (acc : List (String × CalValue)) (kv : String × PyValue) :
    List (String × CalValue) :=
  match paramSpec phase (pyUpper (pyStrip kv.1)) with
  | none => acc
  | some expected =>
      match normValueOfPy expected kv.2 with
      | none => acc
      | some v => assocUpsert acc (pyUpper (pyStrip kv.1)) v

/-- Embedding of `_normalize_overrides` from `calibration.py`: ignore a non-dict payload,
then run the loop over the stored items. -/
def normalize_overrides (phase : String) (raw : Option PyValue) : List (String × CalValue) :=
  match raw with
  | some (.dict entries) => entries.foldl (normalizeStep phase) []
  | _ => []

/-- Embedding of `default_control` from `calibration.py`. -/
def default_control : CalibrationControl :=
  { active := false
    phase := "phase1"
    interval_seconds := DEFAULT_CALIBRATION_INTERVAL_SECONDS
    overrides := [] }

/-- Embedding of `load_control` from `calibration.py`. An absent or unparsable file gives
the defaults; a parsed JSON object is read field by field with defensive
defaulting; a parsed non-object raises `AttributeError` at `payload.get`,
which nothing catches. -/
def load_control (store : CalStore) : Except CalError CalibrationControl :=
  match store with
  | .absent => .ok default_control
  | .unparsable => .ok default_control
  | .parsed payload =>
      match payload with
      | .dict entries =>
          let phase0 := pyLower (pyStrip (pyStr ((dictGet entries "phase").getD (.str "phase1"))))
          let phase := if (phaseSpec phase0).isSome then phase0 else "phase1"
          let interval :=
            to_interval (dictGet entries "interval_seconds") DEFAULT_CALIBRATION_INTERVAL_SECONDS
          let overrides := normalize_overrides phase (dictGet entries "overrides")
          let active := pyBool ((dictGet entries "active").getD (.bool false))
          .ok { active := active, phase := phase, interval_seconds := interval, overrides := overrides }
      | _ => .error .attributeError

/-- An override value as `json.dumps` writes it. -/
def serializeValue : CalValue → PyValue
  | .int n => .int n
  | .float q => .float q

/-- Embedding of `save_control` from `calibration.py`: the serialized payload. The
`updated_at` server timestamp is modelled as a constant because `load_control`
never reads it and every claim excludes it. -/
def save_control (control : CalibrationControl) : CalStore :=
  .parsed (.dict
    [("active", .bool control.active),
     ("phase", .str control.phase),
     ("interval_seconds", .int control.interval_seconds),
     ("overrides", .dict (control.overrides.map (fun p => (p.1, serializeValue p.2)))),
     ("updated_at", .str "1970-01-01T00:00:00Z")])

/-- Embedding of `start_calibration` from `calibration.py`. It never reads the existing
store (`_store`); it validates the phase, clamps the interval, resets the
overrides and saves an active control. -/
def start_calibration (_store : CalStore) (phase : String) (interval_seconds : Option ℤ) :
    Except CalError (CalibrationControl × CalStore) :=
  let normalized_phase := pyLower (pyStrip phase)
  if (phaseSpec normalized_phase).isNone then .error .invalidPhase
  else
    let interval :=
      to_interval (interval_seconds.map PyValue.int) DEFAULT_CALIBRATION_INTERVAL_SECONDS
    let control : CalibrationControl :=
      { active := true, phase := normalized_phase, interval_seconds := interval, overrides := [] }
    .ok (control, save_control control)

/-- Embedding of `stop_calibration` from `calibration.py`: load the previous control,
save an inactive one with the same phase and interval and empty overrides,
return both. -/
def stop_calibration (store : CalStore) :
    Except CalError ((CalibrationControl × CalibrationControl) × CalStore) := do
  let previous ← load_control store
  let current : CalibrationControl :=
    { active := false
      phase := previous.phase
      interval_seconds := previous.interval_seconds
      overrides := [] }
  .ok ((previous, current), save_control current)

/-- Embedding of `set_override` from `calibration.py`: reject when inactive, when the
upper-cased key is not in the active phase's set, or when the value does not
parse; otherwise store the parsed value and save. -/
def set_override (store : CalStore) (parameter raw_value : String) :
    Except CalError ((CalibrationControl × String × CalValue) × CalStore) := do
  let current ← load_control store
  if !current.active then
    throw .calibrationInactive
  else
    let key := pyUpper (pyStrip parameter)
    match paramSpec current.phase key with
    | none => throw (.unknownParameter current.phase)
    | some expected =>
        match parse_typed_value raw_value expected with
        | .error e => throw e
        | .ok value =>
            let updated : CalibrationControl :=
              { current with overrides := assocUpsert current.overrides key value }
            .ok ((updated, key, value), save_control updated)

/-- Embedding of `str` of an override value in an f-string (`f"/cal_set {key} {value}"`). -/
def calValueStr : CalValue → String
  | .int n => toString n
  | .float q => floatStr q

/-- Insert into a `≤`-sorted list of strings (Python `sorted` on dict keys
compares code points lexicographically, as `String.lt` does). -/
def insertSorted (x : String) : List String → List String
  | [] => [x]
  | y :: ys => if x < y then x :: y :: ys else y :: insertSorted x ys

/-- Python `sorted` on a list of strings. -/
def sortStrings (l : List String) : List String := l.foldr insertSorted []

/-- Embedding of `build_stop_summary` from `calibration.py`: header, replay `/cal_start`
line, one `/cal_set` line per override in sorted key order, and a
no-overrides note when the dict is empty. -/
def build_stop_summary (previous : CalibrationControl) : String :=
  let base :=
    ["Calibration stopped for " ++ previous.phase ++
       ". Alerts re-enabled and .env defaults restored.",
     "Final command state:",
     "/cal_start " ++ previous.phase ++ " " ++ toString previous.interval_seconds]
  let keys := sortStrings (previous.overrides.map Prod.fst)
  let overrideLines := keys.filterMap (fun k =>
    (assocGet previous.overrides k).map (fun v => "/cal_set " ++ k ++ " " ++ calValueStr v))
  let lines := base ++ overrideLines ++
    (if previous.overrides.isEmpty then ["(no parameter overrides were applied)"] else [])
  String.intercalate "\n" lines

/-! ## telegram_poller.py — the update-loop delivery offset -/

/-- One step of `TelegramStartPoller._run`'s offset update:
`self._offset = max(self._offset, int(update.get("update_id", 0)) + 1)`.
`none` is an update without an `update_id` field. -/
def advance_offset (offset : ℤ) (update_id : Option ℤ) : ℤ :=
  max offset (update_id.getD 0 + 1)

/-- The offset after one `getUpdates` batch, processed in arrival order. -/
def process_batch (offset : ℤ) (batch : List (Option ℤ)) : ℤ :=
  batch.foldl advance_offset offset

/-- The offset after a sequence of batches. -/
def run_update_batches (offset : ℤ) (batches : List (List (Option ℤ))) : ℤ :=
  batches.foldl process_batch offset

/-! ## notifier.py — the alert path

The notification transport is an external collaborator; the booleans are an
oracle for whether each transport call succeeds, and the event list records
the calls `send_alert` makes, in order. -/

/-- One transport call made by `send_alert`: the alert text
(`self.send_text(message)`) or a clip send with its caption. -/
inductive SendEvent where
  | text
  | clip (caption : String)
deriving DecidableEq

/-- Embedding of `TelegramNotifier.send_alert` from `notifier.py`: send the text, then
the clip; on a clip failure retry the clip exactly once with the retry
caption; a second failure propagates. `Except.ok` carries the `"retried"`
flag of the returned dict. -/
def send_alert (text_ok clip_ok retry_ok : Bool) : Except Unit Bool × List SendEvent :=
  if !text_ok then (.error (), [.text])
  else if clip_ok then (.ok false, [.text, .clip "Triggering audio clip"])
  else if retry_ok then
    (.ok true, [.text, .clip "Triggering audio clip", .clip "Triggering audio clip (retry)"])
  else
    (.error (), [.text, .clip "Triggering audio clip", .clip "Triggering audio clip (retry)"])


/-! ## Helper lemmas -/

theorem takeLast_eq_min (k : ℕ) (l : List Bool) : takeLast k l = takeLast (min l.length k) l := by
  unfold takeLast
  congr 1
  omega

theorem takeLast_length (k : ℕ) (l : List Bool) : (takeLast k l).length = min l.length k := by
  unfold takeLast
  simp [List.length_drop]
  omega

theorem takeLast_of_le (k : ℕ) (l : List Bool) (h : l.length ≤ k) : takeLast k l = l := by
  unfold takeLast
  simp [Nat.sub_eq_zero_of_le h]

theorem update_runtime_history (s : GatingEngine) (hinv : (s.history.length : ℤ) ≤ s.confirm_m)
    (pt : Option ℚ) (cn cd : Option ℤ) (v : ℤ) :
    (s.update_runtime pt cn (some v) cd).history =
      takeLast (min s.history.length (max 1 v).toNat) s.history := by
  rw [← takeLast_eq_min]
  obtain _ | vpt := pt <;> obtain _ | vcn := cn <;> obtain _ | vcd := cd <;>
    simp only [GatingEngine.update_runtime] <;>
    split <;>
    (try simp) <;>
    (try rw [takeLast_of_le _ _ (by omega)])


/-- The value stored for a parameter matches its declared type (and an
integer parameter is non-negative, as `_parse_typed_value` guarantees). -/
def valueWT : ParamType → CalValue → Bool
  | .int, .int n => decide (0 ≤ n)
  | .float, .float _ => true
  | _, _ => false

/-- An override entry is allowed for the phase and well typed. -/
def entryWF (phase : String) (p : String × CalValue) : Bool :=
  match paramSpec phase p.1 with
  | none => false
  | some t => valueWT t p.2

/-- The sanitization invariant every loaded or saved control satisfies. -/
def ControlWF (c : CalibrationControl) : Prop :=
  (c.phase = "phase1" ∨ c.phase = "phase2") ∧
  (2 ≤ c.interval_seconds ∧ c.interval_seconds ≤ 600) ∧
  (∀ p ∈ c.overrides, entryWF c.phase p = true) ∧
  (c.overrides.map Prod.fst).Nodup

theorem phaseSpec_some {s : String} (h : (phaseSpec s).isSome) : s = "phase1" ∨ s = "phase2" := by
  by_cases h1 : s = "phase1"
  · exact .inl h1
  · by_cases h2 : s = "phase2"
    · exact .inr h2
    · exfalso
      unfold phaseSpec at h
      split at h
      · exact h1 rfl
      · exact h2 rfl
      · simp at h

theorem normValueOfPy_wt {t : ParamType} {v : PyValue} {w : CalValue}
    (h : normValueOfPy t v = some w) : valueWT t w = true := by
  cases t <;> cases v <;> simp [normValueOfPy] at h
  case int.int n =>
    obtain ⟨h1, h2⟩ := h
    subst h2
    simpa [valueWT] using h1
  case int.str s =>
    rcases hp : parsePyInt s with _ | n <;> rw [hp] at h <;> simp at h
    obtain ⟨h1, h2⟩ := h
    subst h2
    simpa [valueWT] using h1
  case float.int n =>
    subst h
    rfl
  case float.float q =>
    subst h
    rfl
  case float.str s =>
    obtain ⟨q, hq, rfl⟩ := h
    rfl

theorem parse_typed_value_wt {raw : String} {t : ParamType} {w : CalValue}
    (h : parse_typed_value raw t = .ok w) : valueWT t w = true := by
  cases t
  case int =>
    rw [show parse_typed_value raw .int = (match parsePyInt (pyStrip raw) with
        | none => Except.error .invalidValue
        | some v => if v < 0 then Except.error .invalidValue else Except.ok (.int v)) from rfl] at h
    split at h
    · exact absurd h (by simp)
    · split at h
      · exact absurd h (by simp)
      · next hn =>
          injection h with h
          subst h
          simp [valueWT]
          omega
  case float =>
    rw [show parse_typed_value raw .float = (match parsePyFloat (pyStrip raw) with
        | none => Except.error .invalidValue
        | some q => Except.ok (.float q)) from rfl] at h
    split at h
    · exact absurd h (by simp)
    · injection h with h
      subst h
      rfl

theorem assocUpsert_mem {l : List (String × CalValue)} {key : String} {v : CalValue}
    {p : String × CalValue} (hp : p ∈ assocUpsert l key v) :
    p ∈ l ∨ p = (key, v) := by
  unfold assocUpsert at hp
  split at hp
  · rcases List.mem_map.mp hp with ⟨q, hq, rfl⟩
    by_cases hk : q.1 = key
    · right
      simp [hk]
    · left
      simpa [hk] using hq
  · rcases List.mem_append.mp hp with h | h
    · exact .inl h
    · right
      simpa using h

theorem assocUpsert_keys_cases (l : List (String × CalValue)) (key : String) (v : CalValue) :
    ((l.any fun p => p.1 == key) = true ∧
      (assocUpsert l key v).map Prod.fst = l.map Prod.fst) ∨
    ((l.any fun p => p.1 == key) = false ∧
      (assocUpsert l key v).map Prod.fst = l.map Prod.fst ++ [key]) := by
  unfold assocUpsert
  by_cases ha : (l.any fun p => p.1 == key) = true
  · left
    refine ⟨ha, ?_⟩
    rw [if_pos ha, List.map_map]
    apply List.map_congr_left
    intro q _
    by_cases hk : q.1 = key
    · simp [hk]
    · simp [hk]
  · right
    refine ⟨Bool.eq_false_iff.mpr ha, ?_⟩
    rw [if_neg ha]
    simp

theorem assocUpsert_keys_nodup {l : List (String × CalValue)} {key : String} {v : CalValue}
    (h : (l.map Prod.fst).Nodup) : ((assocUpsert l key v).map Prod.fst).Nodup := by
  rcases assocUpsert_keys_cases l key v with ⟨_, hk⟩ | ⟨ha, hk⟩
  · rw [hk]
    exact h
  · rw [hk]
    rw [List.nodup_append]
    refine ⟨h, List.nodup_singleton key, ?_⟩
    intro a hal has
    rcases List.mem_map.mp hal with ⟨q, hq, rfl⟩
    have := List.any_eq_false.mp ha q hq
    simp at has
    simp [has] at this

theorem assocUpsert_wf {phase : String} {l : List (String × CalValue)} {key : String}
    {v : CalValue} (hl : ∀ p ∈ l, entryWF phase p = true)
    (hkv : entryWF phase (key, v) = true) :
    ∀ p ∈ assocUpsert l key v, entryWF phase p = true := by
  intro p hp
  rcases assocUpsert_mem hp with h | rfl
  · exact hl p h
  · exact hkv

theorem normalizeStep_inv {phase : String} {acc : List (String × CalValue)}
    {kv : String × PyValue} (h1 : ∀ p ∈ acc, entryWF phase p = true)
    (h2 : (acc.map Prod.fst).Nodup) :
    (∀ p ∈ normalizeStep phase acc kv, entryWF phase p = true) ∧
    ((normalizeStep phase acc kv).map Prod.fst).Nodup := by
  unfold normalizeStep
  split
  · exact ⟨h1, h2⟩
  · next expected hsp =>
      split
      · exact ⟨h1, h2⟩
      · next v hv =>
          refine ⟨assocUpsert_wf h1 ?_, assocUpsert_keys_nodup h2⟩
          unfold entryWF
          rw [hsp]
          exact normValueOfPy_wt hv

theorem foldl_normalizeStep_inv (phase : String) (entries : List (String × PyValue))
    (acc : List (String × CalValue)) (h1 : ∀ p ∈ acc, entryWF phase p = true)
    (h2 : (acc.map Prod.fst).Nodup) :
    (∀ p ∈ entries.foldl (normalizeStep phase) acc, entryWF phase p = true) ∧
    ((entries.foldl (normalizeStep phase) acc).map Prod.fst).Nodup := by
  induction entries generalizing acc with
  | nil => exact ⟨h1, h2⟩
  | cons kv rest ih =>
      rcases @normalizeStep_inv phase acc kv h1 h2 with ⟨g1, g2⟩
      exact ih _ g1 g2

theorem normalize_overrides_wf (phase : String) (raw : Option PyValue) :
    (∀ p ∈ normalize_overrides phase raw, entryWF phase p = true) ∧
    ((normalize_overrides phase raw).map Prod.fst).Nodup := by
  unfold normalize_overrides
  split
  · exact foldl_normalizeStep_inv _ _ [] (by simp) (by simp)
  · simp

theorem to_interval_range (v : Option PyValue) :
    2 ≤ to_interval v DEFAULT_CALIBRATION_INTERVAL_SECONDS ∧
    to_interval v DEFAULT_CALIBRATION_INTERVAL_SECONDS ≤ 600 := by
  unfold to_interval DEFAULT_CALIBRATION_INTERVAL_SECONDS
  split
  · omega
  · omega
  · split
    · omega
    · omega

theorem phase_choice_wf (p0 : String) :
    (if (phaseSpec p0).isSome then p0 else "phase1") = "phase1" ∨
    (if (phaseSpec p0).isSome then p0 else "phase1") = "phase2" := by
  split
  · next h => exact phaseSpec_some h
  · exact .inl rfl

theorem load_control_wf {st : CalStore} {c : CalibrationControl}
    (h : load_control st = .ok c) : ControlWF c := by
  cases st with
  | absent =>
      injection h with h
      subst h
      exact ⟨.inl rfl, ⟨by decide, by decide⟩, by simp [default_control], by simp [default_control]⟩
  | unparsable =>
      injection h with h
      subst h
      exact ⟨.inl rfl, ⟨by decide, by decide⟩, by simp [default_control], by simp [default_control]⟩
  | parsed payload =>
      cases payload <;> try exact Except.noConfusion h
      case dict entries =>
        simp only [load_control, Except.ok.injEq] at h
        subst h
        refine ⟨phase_choice_wf _, to_interval_range _, ?_, ?_⟩
        · exact (normalize_overrides_wf _ _).1
        · exact (normalize_overrides_wf _ _).2



theorem paramSpec_key_id {phase k : String} {t : ParamType}
    (hph : phase = "phase1" ∨ phase = "phase2") (h : paramSpec phase k = some t) :
    pyUpper (pyStrip k) = k := by
  have hgen : ∀ (specs : List (String × ParamType)),
      (specs.find? (fun p => p.1 == k)).map Prod.snd = some t →
      (∀ p ∈ specs, pyUpper (pyStrip p.1) = p.1) → pyUpper (pyStrip k) = k := by
    intro specs hf hall
    rcases hfq : specs.find? (fun p => p.1 == k) with _ | q
    · rw [hfq] at hf
      simp at hf
    · have hq := List.find?_some hfq
      have hmem := List.mem_of_find?_eq_some hfq
      have hk : q.1 = k := by simpa using hq
      rw [← hk]
      exact hall q hmem
  rcases hph with rfl | rfl
  · exact hgen _ h (by decide)
  · exact hgen _ h (by decide)

theorem normValueOfPy_serialized {t : ParamType} {w : CalValue} (h : valueWT t w = true) :
    normValueOfPy t (serializeValue w) = some w := by
  cases t <;> cases w
  case int.int n =>
    simp only [valueWT, decide_eq_true_eq] at h
    simp only [normValueOfPy, serializeValue]
    rw [if_neg (by omega)]
  case int.float q => exact absurd h (by simp [valueWT])
  case float.int n => exact absurd h (by simp [valueWT])
  case float.float q => simp [normValueOfPy, serializeValue]

theorem assocUpsert_append {l : List (String × CalValue)} {key : String} {v : CalValue}
    (h : ¬ (l.any fun p => p.1 == key) = true) :
    assocUpsert l key v = l ++ [(key, v)] := by
  unfold assocUpsert
  rw [if_neg h]

theorem foldl_serialized (phase : String) (hph : phase = "phase1" ∨ phase = "phase2")
    (l acc : List (String × CalValue))
    (hwf : ∀ p ∈ l, entryWF phase p = true)
    (hnd : (acc.map Prod.fst ++ l.map Prod.fst).Nodup) :
    (l.map (fun p => (p.1, serializeValue p.2))).foldl (normalizeStep phase) acc = acc ++ l := by
  induction l generalizing acc with
  | nil => simp
  | cons p rest ih =>
      have hpw0 := hwf p (by simp)
      unfold entryWF at hpw0
      rcases hsp : paramSpec phase p.1 with _ | t
      · rw [hsp] at hpw0
        simp at hpw0
      · rw [hsp] at hpw0
        have hpw : valueWT t p.2 = true := hpw0
        have hid := paramSpec_key_id hph hsp
        have hstep : normalizeStep phase acc (p.1, serializeValue p.2) = acc ++ [p] := by
          unfold normalizeStep
          simp only [hid, hsp, normValueOfPy_serialized hpw]
          have hnotin : ¬ (acc.any fun q => q.1 == p.1) = true := by
            intro hany
            rcases List.any_eq_true.mp hany with ⟨q, hq, hqk⟩
            have hpm : p.1 ∈ acc.map Prod.fst := List.mem_map.mpr ⟨q, hq, by simpa using hqk⟩
            have hd := (List.nodup_append.mp hnd).2.2
            exact hd hpm (by simp)
          rw [assocUpsert_append hnotin]
        rw [List.map_cons, List.foldl_cons, hstep]
        have hres := ih (acc ++ [p]) (fun q hq => hwf q (List.mem_cons_of_mem _ hq))
          (by simpa [List.append_assoc] using hnd)
        rw [hres]
        simp

theorem roundtrip_of_wf {c : CalibrationControl} (hWF : ControlWF c) :
    load_control (save_control c) = .ok c := by
  obtain ⟨hph, hint, hwf, hnd⟩ := hWF
  obtain ⟨ca, cph, cint, cov⟩ := c
  simp only at hph hint hwf hnd
  rw [show load_control (save_control ⟨ca, cph, cint, cov⟩) = Except.ok
      { active := ca,
        phase := (if (phaseSpec (pyLower (pyStrip cph))).isSome then pyLower (pyStrip cph)
                  else "phase1"),
        interval_seconds := max 2 (min cint 600),
        overrides := normalize_overrides
          (if (phaseSpec (pyLower (pyStrip cph))).isSome then pyLower (pyStrip cph) else "phase1")
          (some (.dict (cov.map (fun p => (p.1, serializeValue p.2))))) } from rfl]
  rcases hph with rfl | rfl
  · simp only [show pyLower (pyStrip "phase1") = "phase1" from rfl,
      show (phaseSpec "phase1").isSome = true from rfl, if_true]
    have hov : normalize_overrides "phase1"
        (some (.dict (cov.map (fun p => (p.1, serializeValue p.2))))) = cov := by
      simp only [normalize_overrides]
      exact (foldl_serialized "phase1" (.inl rfl) cov [] hwf (by simpa using hnd)).trans (by simp)
    rw [hov]
    simp only [Except.ok.injEq, CalibrationControl.mk.injEq]
    exact ⟨trivial, trivial, by omega, trivial⟩
  · simp only [show pyLower (pyStrip "phase2") = "phase2" from rfl,
      show (phaseSpec "phase2").isSome = true from rfl, if_true]
    have hov : normalize_overrides "phase2"
        (some (.dict (cov.map (fun p => (p.1, serializeValue p.2))))) = cov := by
      simp only [normalize_overrides]
      exact (foldl_serialized "phase2" (.inr rfl) cov [] hwf (by simpa using hnd)).trans (by simp)
    rw [hov]
    simp only [Except.ok.injEq, CalibrationControl.mk.injEq]
    exact ⟨trivial, trivial, by omega, trivial⟩



theorem set_override_eq {st : CalStore} {c : CalibrationControl}
    (h : load_control st = .ok c) (p v : String) :
    set_override st p v =
      (if !c.active then .error .calibrationInactive
       else
         match paramSpec c.phase (pyUpper (pyStrip p)) with
         | none => .error (.unknownParameter c.phase)
         | some expected =>
             match parse_typed_value v expected with
             | .error e => .error e
             | .ok value =>
                 .ok (({ c with overrides := assocUpsert c.overrides (pyUpper (pyStrip p)) value },
                       pyUpper (pyStrip p), value),
                      save_control
                        { c with overrides := assocUpsert c.overrides (pyUpper (pyStrip p)) value })) := by
  unfold set_override
  rw [h]
  rfl



theorem parse_typed_value_error {raw : String} {t : ParamType} {e : CalError}
    (h : parse_typed_value raw t = .error e) : e = .invalidValue := by
  cases t
  case int =>
    rw [show parse_typed_value raw .int = (match parsePyInt (pyStrip raw) with
        | none => Except.error .invalidValue
        | some v => if v < 0 then Except.error .invalidValue else Except.ok (.int v)) from rfl] at h
    split at h
    · injection h with h
      exact h.symm
    · split at h
      · injection h with h
        exact h.symm
      · exact Except.noConfusion h
  case float =>
    rw [show parse_typed_value raw .float = (match parsePyFloat (pyStrip raw) with
        | none => Except.error .invalidValue
        | some q => Except.ok (.float q)) from rfl] at h
    split at h
    · injection h with h
      exact h.symm
    · exact Except.noConfusion h

theorem parse_typed_int_fail {raw : String}
    (h : parsePyInt (pyStrip raw) = none ∨ ∃ n, parsePyInt (pyStrip raw) = some n ∧ n < 0) :
    parse_typed_value raw .int = .error .invalidValue := by
  rw [show parse_typed_value raw .int = (match parsePyInt (pyStrip raw) with
      | none => Except.error .invalidValue
      | some v => if v < 0 then Except.error .invalidValue else Except.ok (.int v)) from rfl]
  rcases h with h | ⟨n, hn, hneg⟩
  · rw [h]
  · rw [hn]
    simp [hneg]

theorem parse_typed_float_fail {raw : String} (h : parsePyFloat (pyStrip raw) = none) :
    parse_typed_value raw .float = .error .invalidValue := by
  rw [show parse_typed_value raw .float = (match parsePyFloat (pyStrip raw) with
      | none => Except.error .invalidValue
      | some q => Except.ok (.float q)) from rfl]
  rw [h]

theorem find?_upsert_map {l : List (String × CalValue)} {key : String} {v : CalValue}
    (h : (l.any fun p => p.1 == key) = true) :
    (l.map fun p => if p.1 == key then (p.1, v) else p).find? (fun p => p.1 == key) =
      some (key, v) := by
  induction l with
  | nil => simp at h
  | cons p rest ih =>
      by_cases hk : p.1 = key
      · subst hk
        simp [List.find?]
      · have h' : (rest.any fun q => q.1 == key) = true := by
          rcases List.any_eq_true.mp h with ⟨q, hq, hqk⟩
          rcases List.mem_cons.mp hq with rfl | hq'
          · exact absurd (by simpa using hqk) hk
          · exact List.any_eq_true.mpr ⟨q, hq', hqk⟩
        rw [List.map_cons, if_neg (by simpa using hk),
          List.find?_cons_of_neg _ (by simpa using hk)]
        exact ih h'

theorem assocGet_upsert (l : List (String × CalValue)) (key : String) (v : CalValue) :
    assocGet (assocUpsert l key v) key = some v := by
  unfold assocUpsert assocGet
  split
  · next ha =>
      rw [find?_upsert_map ha]
      rfl
  · next ha =>
      have h1 : l.find? (fun p => p.1 == key) = none := by
        rw [List.find?_eq_none]
        intro q hq
        have := List.any_eq_false.mp (Bool.eq_false_iff.mpr ha) q hq
        simpa using this
      rw [List.find?_append, h1]
      simp [List.find?]

theorem upsert_control_wf {c : CalibrationControl} (h : ControlWF c) {key : String}
    {t : ParamType} (hk : paramSpec c.phase key = some t) {v : CalValue}
    (hv : valueWT t v = true) :
    ControlWF { c with overrides := assocUpsert c.overrides key v } := by
  obtain ⟨h1, h2, h3, h4⟩ := h
  refine ⟨h1, h2, ?_, assocUpsert_keys_nodup h4⟩
  apply assocUpsert_wf h3
  unfold entryWF
  rw [show ((key, v).1) = key from rfl, hk]
  exact hv



/-! ## Claim theorems -/

/-- C1: for every `DetectionResult` and every threshold set,
`passes_verifier_with_thresholds` returns the verdict of the spec's three
rules evaluated in order (threshold gate, margin gate, confusable-dominance
gate with the long-form dominance condition). -/
theorem C1_decision_policy_matches_spec_rules (result : DetectionResult)
    (baby_threshold cat_weight margin_threshold cat_suppress_threshold : ℚ) :
    passes_verifier_with_thresholds result
        baby_threshold cat_weight margin_threshold cat_suppress_threshold =
      specPassesRules result
        baby_threshold cat_weight margin_threshold cat_suppress_threshold := by
  simp only [passes_verifier_with_thresholds, specPassesRules]
  by_cases h1 : result.baby_score < baby_threshold
  · simp [h1]
  · by_cases h2 : result.baby_score - cat_weight * result.cat_score < margin_threshold
    · simp [h1, h2]
    · by_cases hc : cat_suppress_threshold ≤ result.cat_score
      · by_cases hd : result.baby_score ≤ result.cat_score
        · simp [h1, h2, hc, hd, not_lt.mpr hd]
        · simp [h1, h2, hc, hd, not_le.mp hd, not_lt.mp h1]
      · simp [h1, h2, hc]

/-- C2: a fresh `GatingEngine` with `confirm_n = 2`, `confirm_m = 3`,
`cooldown_seconds = 120`, thresholds `baby = 0.4`, `cat_weight = 1.0`,
`margin = 0.1`, `cat_suppress = 0.7` and the default primary threshold,
fed the windows `(0.8, 0.8, 0.1)`, `(0.9, 0.9, 0.1)`, `(0.9, 0.9, 0.1)` at
any non-decreasing times within a 120-second span, answers
`ready_for_alert = false, true, false`, the third confirmed and
unsuppressed but blocked by the cooldown. -/
theorem C2_gating_confirm_cooldown_scenario (t1 t2 t3 : ℚ) (h12 : t1 ≤ t2) (h23 : t2 ≤ t3)
    (hspan : t3 - t1 < 120) :
    ((GatingEngine.init 0.4 1.0 0.1 0.7 2 3 120).evaluate t1 0.8 0.8 0.1).2.ready_for_alert
        = false ∧
    (((GatingEngine.init 0.4 1.0 0.1 0.7 2 3 120).evaluate t1 0.8 0.8 0.1).1.evaluate
        t2 0.9 0.9 0.1).2.ready_for_alert = true ∧
    ((((GatingEngine.init 0.4 1.0 0.1 0.7 2 3 120).evaluate t1 0.8 0.8 0.1).1.evaluate
        t2 0.9 0.9 0.1).1.evaluate t3 0.9 0.9 0.1).2.ready_for_alert = false ∧
    ((((GatingEngine.init 0.4 1.0 0.1 0.7 2 3 120).evaluate t1 0.8 0.8 0.1).1.evaluate
        t2 0.9 0.9 0.1).1.evaluate t3 0.9 0.9 0.1).2.confirmed = true ∧
    ((((GatingEngine.init 0.4 1.0 0.1 0.7 2 3 120).evaluate t1 0.8 0.8 0.1).1.evaluate
        t2 0.9 0.9 0.1).1.evaluate t3 0.9 0.9 0.1).2.suppressed_by_cat = false := by
  have hcool : ¬ ((120 : ℚ) ≤ t3 - t2) := by linarith
  norm_num [GatingEngine.evaluate, GatingEngine.init, takeLast, hcool]

/-- C2 witness: the scenario at concrete times `0, 0, 0`. -/
theorem C2_gating_confirm_cooldown_scenario_witness :
    ((0 : ℚ) ≤ 0) ∧ ((0 : ℚ) ≤ 0) ∧ ((0 : ℚ) - 0 < 120) ∧
    (((GatingEngine.init 0.4 1.0 0.1 0.7 2 3 120).evaluate 0 0.8 0.8 0.1).2.ready_for_alert
        = false ∧
    (((GatingEngine.init 0.4 1.0 0.1 0.7 2 3 120).evaluate 0 0.8 0.8 0.1).1.evaluate
        0 0.9 0.9 0.1).2.ready_for_alert = true ∧
    ((((GatingEngine.init 0.4 1.0 0.1 0.7 2 3 120).evaluate 0 0.8 0.8 0.1).1.evaluate
        0 0.9 0.9 0.1).1.evaluate 0 0.9 0.9 0.1).2.ready_for_alert = false ∧
    ((((GatingEngine.init 0.4 1.0 0.1 0.7 2 3 120).evaluate 0 0.8 0.8 0.1).1.evaluate
        0 0.9 0.9 0.1).1.evaluate 0 0.9 0.9 0.1).2.confirmed = true ∧
    ((((GatingEngine.init 0.4 1.0 0.1 0.7 2 3 120).evaluate 0 0.8 0.8 0.1).1.evaluate
        0 0.9 0.9 0.1).1.evaluate 0 0.9 0.9 0.1).2.suppressed_by_cat = false) :=
  ⟨le_refl 0, le_refl 0, by norm_num,
   C2_gating_confirm_cooldown_scenario 0 0 0 (le_refl 0) (le_refl 0) (by norm_num)⟩



/-- C3: `set_override` fails with `CalibrationInactive` when the loaded
control is inactive; with `UnknownParameter` when the upper-cased name is
not in the active phase's set; with `InvalidValue` when the raw text does
not parse as the declared type or an integer parses negative; and on an
active phase2 control, `CAT_WEIGHT` with raw `"1.4"` succeeds and reloading
the saved store shows `overrides["CAT_WEIGHT"] == 1.4`. -/
theorem C3_set_override_validation :
    (∀ st c p v, load_control st = .ok c → c.active = false →
        set_override st p v = .error .calibrationInactive) ∧
    (∀ st c p v, load_control st = .ok c → c.active = true →
        paramSpec c.phase (pyUpper (pyStrip p)) = none →
        set_override st p v = .error (.unknownParameter c.phase)) ∧
    (∀ st c p v, load_control st = .ok c → c.active = true →
        paramSpec c.phase (pyUpper (pyStrip p)) = some ParamType.int →
        (parsePyInt (pyStrip v) = none ∨ ∃ n, parsePyInt (pyStrip v) = some n ∧ n < 0) →
        set_override st p v = .error .invalidValue) ∧
    (∀ st c p v, load_control st = .ok c → c.active = true →
        paramSpec c.phase (pyUpper (pyStrip p)) = some ParamType.float →
        parsePyFloat (pyStrip v) = none →
        set_override st p v = .error .invalidValue) ∧
    (∀ st c, load_control st = .ok c → c.active = true → c.phase = "phase2" →
        set_override st "CAT_WEIGHT" "1.4" =
          .ok (({ c with overrides := assocUpsert c.overrides "CAT_WEIGHT" (.float (1.4 : ℚ)) },
                "CAT_WEIGHT", .float (1.4 : ℚ)),
               save_control
                 { c with overrides := assocUpsert c.overrides "CAT_WEIGHT" (.float (1.4 : ℚ)) }) ∧
        ∃ c2, load_control (save_control
            { c with overrides := assocUpsert c.overrides "CAT_WEIGHT" (.float (1.4 : ℚ)) }) =
            .ok c2 ∧
          assocGet c2.overrides "CAT_WEIGHT" = some (.float (1.4 : ℚ))) := by
  refine ⟨?_, ?_, ?_, ?_, ?_⟩
  · intro st c p v h hact
    rw [set_override_eq h, hact]
    rfl
  · intro st c p v h hact hps
    rw [set_override_eq h, hact]
    simp only [Bool.not_true, Bool.false_eq_true, if_false, hps]
  · intro st c p v h hact hps hfail
    rw [set_override_eq h, hact]
    simp only [Bool.not_true, Bool.false_eq_true, if_false, hps, parse_typed_int_fail hfail]
  · intro st c p v h hact hps hfail
    rw [set_override_eq h, hact]
    simp only [Bool.not_true, Bool.false_eq_true, if_false, hps, parse_typed_float_fail hfail]
  · intro st c h hact hph
    have hkey : pyUpper (pyStrip "CAT_WEIGHT") = "CAT_WEIGHT" := rfl
    have hps : paramSpec c.phase "CAT_WEIGHT" = some ParamType.float := by
      rw [hph]
      with_unfolding_all rfl
    have hparse : parse_typed_value "1.4" ParamType.float = .ok (.float (1.4 : ℚ)) := by
      with_unfolding_all rfl
    constructor
    · rw [set_override_eq h, hact]
      simp only [Bool.not_true, Bool.false_eq_true, if_false, hps, hparse, hkey]
    · have hwf2 : ControlWF
          { c with overrides := assocUpsert c.overrides "CAT_WEIGHT" (.float (1.4 : ℚ)) } := by
        apply upsert_control_wf (load_control_wf h)
        · rw [hph]
          rfl
        · rfl
      refine ⟨_, roundtrip_of_wf hwf2, ?_⟩
      exact assocGet_upsert _ _ _

/-- C3 witness: each branch at a concrete store — an inactive store, an
unknown parameter, a negative integer, unparsable float text, and the
phase2 `CAT_WEIGHT = "1.4"` success read back from the saved store. -/
theorem C3_set_override_validation_witness :
    (load_control (.parsed (.dict [])) = .ok ⟨false, "phase1", 15, []⟩ ∧
      set_override (.parsed (.dict [])) "CAT_WEIGHT" "1.4" =
        .error .calibrationInactive) ∧
    (load_control (.parsed (.dict [("active", .bool true), ("phase", .str "phase2")])) =
        .ok ⟨true, "phase2", 15, []⟩ ∧
      set_override (.parsed (.dict [("active", .bool true), ("phase", .str "phase2")]))
          "nope" "1.4" = .error (.unknownParameter "phase2")) ∧
    (load_control (.parsed (.dict [("active", .bool true), ("phase", .str "phase1")])) =
        .ok ⟨true, "phase1", 15, []⟩ ∧
      set_override (.parsed (.dict [("active", .bool true), ("phase", .str "phase1")]))
          "CONFIRM_N" "-3" = .error .invalidValue) ∧
    (set_override (.parsed (.dict [("active", .bool true), ("phase", .str "phase2")]))
        "CAT_WEIGHT" "abc" = .error .invalidValue) ∧
    (∃ c2, load_control (save_control
        { active := true, phase := "phase2", interval_seconds := 15,
          overrides := assocUpsert [] "CAT_WEIGHT" (.float (1.4 : ℚ)) }) = .ok c2 ∧
      assocGet c2.overrides "CAT_WEIGHT" = some (.float (1.4 : ℚ))) := by
  refine ⟨⟨by with_unfolding_all rfl, ?_⟩, ⟨by with_unfolding_all rfl, ?_⟩,
      ⟨by with_unfolding_all rfl, ?_⟩, ?_, ?_⟩
  · exact C3_set_override_validation.1 (.parsed (.dict []))
      ⟨false, "phase1", 15, []⟩ "CAT_WEIGHT" "1.4" (by with_unfolding_all rfl) rfl
  · exact C3_set_override_validation.2.1
      (.parsed (.dict [("active", .bool true), ("phase", .str "phase2")]))
      ⟨true, "phase2", 15, []⟩ "nope" "1.4"
      (by with_unfolding_all rfl) rfl (by with_unfolding_all rfl)
  · exact C3_set_override_validation.2.2.1
      (.parsed (.dict [("active", .bool true), ("phase", .str "phase1")]))
      ⟨true, "phase1", 15, []⟩ "CONFIRM_N" "-3"
      (by with_unfolding_all rfl) rfl (by with_unfolding_all rfl)
      (.inr ⟨-3, by with_unfolding_all rfl, by norm_num⟩)
  · exact C3_set_override_validation.2.2.2.1
      (.parsed (.dict [("active", .bool true), ("phase", .str "phase2")]))
      ⟨true, "phase2", 15, []⟩ "CAT_WEIGHT" "abc"
      (by with_unfolding_all rfl) rfl (by with_unfolding_all rfl) (by with_unfolding_all rfl)
  · exact ((C3_set_override_validation.2.2.2.2
      (.parsed (.dict [("active", .bool true), ("phase", .str "phase2")]))
      ⟨true, "phase2", 15, []⟩
      (by with_unfolding_all rfl) rfl rfl).2)

/-- C4: the claim says `load_control` never raises for any stored content;
the code raises an uncaught `AttributeError` at `payload.get` whenever the
file holds valid JSON that is not an object (here: the JSON text `[]` and
`42`), while absent and unparsable files do return the defaults. -/
theorem C4_load_control_nondict_raises :
    load_control CalStore.absent = .ok default_control ∧
    load_control CalStore.unparsable = .ok default_control ∧
    load_control (.parsed (.list [])) = .error .attributeError ∧
    load_control (.parsed (.int 42)) = .error .attributeError :=
  ⟨rfl, rfl, rfl, rfl⟩


/-- C5: `update_runtime` with a new `confirm_m` keeps exactly the most
recent `min(old history length, clamped new confirm_m)` entries in order and
never empties a non-empty history; every other engine field and the
last-alert timestamp are unchanged when their arguments are `None`; and
`confirm_n`, `confirm_m` are clamped to at least `1` and `cooldown_seconds`
to at least `0` instead of raising. The hypothesis is the deque invariant
`history length ≤ confirm_m` that `maxlen` maintains. -/
theorem C5_update_runtime_frame_and_history (s : GatingEngine)
    (hinv : (s.history.length : ℤ) ≤ s.confirm_m)
    (pt : Option ℚ) (cn cm cd : Option ℤ) :
    (∀ v, cm = some v →
        (s.update_runtime pt cn cm cd).confirm_m = max 1 v ∧
        (s.update_runtime pt cn cm cd).history =
          takeLast (min s.history.length (max 1 v).toNat) s.history ∧
        (s.history ≠ [] → (s.update_runtime pt cn cm cd).history ≠ [])) ∧
    (s.update_runtime pt cn cm cd).baby_threshold = s.baby_threshold ∧
    (s.update_runtime pt cn cm cd).cat_weight = s.cat_weight ∧
    (s.update_runtime pt cn cm cd).margin_threshold = s.margin_threshold ∧
    (s.update_runtime pt cn cm cd).cat_suppress_threshold = s.cat_suppress_threshold ∧
    (s.update_runtime pt cn cm cd).last_alert_at = s.last_alert_at ∧
    (pt = none → (s.update_runtime pt cn cm cd).primary_threshold = s.primary_threshold) ∧
    (cn = none → (s.update_runtime pt cn cm cd).confirm_n = s.confirm_n) ∧
    (cm = none → (s.update_runtime pt cn cm cd).confirm_m = s.confirm_m ∧
        (s.update_runtime pt cn cm cd).history = s.history) ∧
    (cd = none → (s.update_runtime pt cn cm cd).cooldown_seconds = s.cooldown_seconds) ∧
    (∀ v, cn = some v → (s.update_runtime pt cn cm cd).confirm_n = max 1 v) ∧
    (∀ v, cd = some v → (s.update_runtime pt cn cm cd).cooldown_seconds = max 0 v) := by
  have hcm : ∀ v : ℤ, cm = some v → (s.update_runtime pt cn cm cd).confirm_m = max 1 v := by
    rintro v rfl
    obtain _ | vpt := pt <;> obtain _ | vcn := cn <;> obtain _ | vcd := cd <;>
      (simp only [GatingEngine.update_runtime]
       split
       · rfl
       · next h =>
           show s.confirm_m = max 1 v
           omega)
  have hhist : ∀ v : ℤ, cm = some v → (s.update_runtime pt cn cm cd).history =
      takeLast (min s.history.length (max 1 v).toNat) s.history := by
    rintro v rfl
    exact update_runtime_history s hinv pt cn cd v
  have hne : ∀ v : ℤ, cm = some v → s.history ≠ [] →
      (s.update_runtime pt cn cm cd).history ≠ [] := by
    intro v hv hnil h0
    have h1 := takeLast_length (min s.history.length (max 1 v).toNat) s.history
    rw [← hhist v hv, h0] at h1
    have h2 : s.history.length ≠ 0 := fun h => hnil (List.length_eq_zero.mp h)
    simp only [List.length_nil] at h1
    omega
  refine ⟨fun v hv => ⟨hcm v hv, hhist v hv, hne v hv⟩,
      ?_, ?_, ?_, ?_, ?_, ?_, ?_, ?_, ?_, ?_, ?_⟩ <;>
    (try rintro rfl) <;>
    (try rintro v rfl) <;>
    (try obtain _ | vpt := pt) <;> (try obtain _ | vcn := cn) <;> (try obtain _ | vcm := cm) <;>
      (try obtain _ | vcd := cd) <;>
    simp only [GatingEngine.update_runtime] <;> (try split) <;> simp

/-- C5 witness: an engine with `confirm_m = 5` and five history entries;
shrinking `confirm_m` to `2` keeps exactly the two most recent entries. -/
theorem C5_update_runtime_frame_and_history_witness :
    ((([true, true, false, true, false] : List Bool).length : ℤ) ≤ 5) ∧
    ((GatingEngine.mk 0.5 0.4 1 0.1 0.7 2 5 120 [true, true, false, true, false]
        none).update_runtime none none (some 2) none).confirm_m = max 1 2 ∧
    ((GatingEngine.mk 0.5 0.4 1 0.1 0.7 2 5 120 [true, true, false, true, false]
        none).update_runtime none none (some 2) none).history =
      takeLast (min ([true, true, false, true, false] : List Bool).length
        ((max 1 2 : ℤ)).toNat) [true, true, false, true, false] ∧
    ((GatingEngine.mk 0.5 0.4 1 0.1 0.7 2 5 120 [true, true, false, true, false]
        none).update_runtime none none (some 2) none).history = [true, false] := by
  have h := (C5_update_runtime_frame_and_history
      (GatingEngine.mk 0.5 0.4 1 0.1 0.7 2 5 120 [true, true, false, true, false] none)
      (by decide) none none (some 2) none).1 2 rfl
  exact ⟨by decide, h.1, h.2.1, by with_unfolding_all rfl⟩

/-- C6: the update-loop delivery offset is monotonically non-decreasing:
each update moves it to the maximum of its previous value and the update's
id plus one, so it never decreases across any sequence of batches, even
with out-of-order ids inside a batch. -/
theorem C6_update_offset_monotone :
    (∀ off u, advance_offset off u = max off (u.getD 0 + 1) ∧ off ≤ advance_offset off u) ∧
    (∀ off u batch, process_batch off (u :: batch) = process_batch (advance_offset off u) batch) ∧
    (∀ off batch, off ≤ process_batch off batch) ∧
    (∀ off batches, off ≤ run_update_batches off batches) := by
  have hb : ∀ batch (off : ℤ), off ≤ process_batch off batch := by
    intro batch
    induction batch with
    | nil => exact fun off => le_refl off
    | cons u rest ih =>
        intro off
        calc off ≤ advance_offset off u := le_max_left _ _
          _ ≤ process_batch (advance_offset off u) rest := ih _
  have hr : ∀ batches (off : ℤ), off ≤ run_update_batches off batches := by
    intro batches
    induction batches with
    | nil => exact fun off => le_refl off
    | cons b rest ih =>
        intro off
        calc off ≤ process_batch off b := hb b off
          _ ≤ run_update_batches (process_batch off b) rest := ih _
  exact ⟨fun off u => ⟨rfl, le_max_left _ _⟩, fun off u batch => rfl,
    fun off batch => hb batch off, fun off batches => hr batches off⟩


/-- C7: for every store state from which `load_control` returns a control,
saving that control and loading again returns the same control — `active`,
`phase`, `interval_seconds` and `overrides` all round-trip (the serialized
timestamp is not part of `CalibrationControl`). -/
theorem C7_save_after_load_roundtrip (st : CalStore) (c : CalibrationControl)
    (h : load_control st = .ok c) :
    load_control (save_control c) = .ok c :=
  roundtrip_of_wf (load_control_wf h)

/-- C7 witness: the round trip at a concrete stored control with one
override. -/
theorem C7_save_after_load_roundtrip_witness :
    load_control (.parsed (.dict [("active", .bool true), ("phase", .str "phase2"),
        ("interval_seconds", .int 30), ("overrides", .dict [("CAT_WEIGHT", .str "1.4")])])) =
      .ok ⟨true, "phase2", 30, [("CAT_WEIGHT", .float (1.4 : ℚ))]⟩ ∧
    load_control (save_control ⟨true, "phase2", 30, [("CAT_WEIGHT", .float (1.4 : ℚ))]⟩) =
      .ok ⟨true, "phase2", 30, [("CAT_WEIGHT", .float (1.4 : ℚ))]⟩ :=
  ⟨by with_unfolding_all rfl,
   C7_save_after_load_roundtrip
     (.parsed (.dict [("active", .bool true), ("phase", .str "phase2"),
        ("interval_seconds", .int 30), ("overrides", .dict [("CAT_WEIGHT", .str "1.4")])]))
     ⟨true, "phase2", 30, [("CAT_WEIGHT", .float (1.4 : ℚ))]⟩
     (by with_unfolding_all rfl)⟩

set_option maxRecDepth 8000 in
/-- C8: from any initial store, `start_calibration phase1 12` followed by a
successful `set_override PRIMARY_CRY_THRESHOLD "0.7"` and `stop_calibration`
yields a previous control whose replay summary contains the literal lines
`/cal_start phase1 12` and `/cal_set PRIMARY_CRY_THRESHOLD 0.7`, and a
current control that keeps the phase and interval, clears the overrides and
is inactive. -/
theorem C8_stop_replay_summary_scenario (st : CalStore) :
    start_calibration st "phase1" (some 12) =
      .ok (⟨true, "phase1", 12, []⟩, save_control ⟨true, "phase1", 12, []⟩) ∧
    set_override (save_control ⟨true, "phase1", 12, []⟩) "PRIMARY_CRY_THRESHOLD" "0.7" =
      .ok ((⟨true, "phase1", 12, [("PRIMARY_CRY_THRESHOLD", .float (0.7 : ℚ))]⟩,
            "PRIMARY_CRY_THRESHOLD", .float (0.7 : ℚ)),
           save_control ⟨true, "phase1", 12, [("PRIMARY_CRY_THRESHOLD", .float (0.7 : ℚ))]⟩) ∧
    stop_calibration
        (save_control ⟨true, "phase1", 12, [("PRIMARY_CRY_THRESHOLD", .float (0.7 : ℚ))]⟩) =
      .ok ((⟨true, "phase1", 12, [("PRIMARY_CRY_THRESHOLD", .float (0.7 : ℚ))]⟩,
            ⟨false, "phase1", 12, []⟩),
           save_control ⟨false, "phase1", 12, []⟩) ∧
    "/cal_start phase1 12".toList <:+:
      (build_stop_summary
        ⟨true, "phase1", 12, [("PRIMARY_CRY_THRESHOLD", .float (0.7 : ℚ))]⟩).toList ∧
    "/cal_set PRIMARY_CRY_THRESHOLD 0.7".toList <:+:
      (build_stop_summary
        ⟨true, "phase1", 12, [("PRIMARY_CRY_THRESHOLD", .float (0.7 : ℚ))]⟩).toList :=
  ⟨by with_unfolding_all rfl, by with_unfolding_all rfl, by with_unfolding_all rfl,
   by with_unfolding_all decide, by with_unfolding_all decide⟩

/-- C9: `send_alert` calls the text send first and the clip send second;
when the first clip send fails it retries the clip exactly once (with the
retry caption) and gives up after that; when the first clip send succeeds
no retry happens. The booleans are the success oracle of the external
transport; the list is the sequence of transport calls. -/
theorem C9_send_alert_text_then_clip_retry_once :
    (∀ text_ok clip_ok retry_ok,
        (send_alert text_ok clip_ok retry_ok).2.head? = some SendEvent.text) ∧
    (∀ retry_ok, send_alert true true retry_ok =
        (.ok false, [SendEvent.text, SendEvent.clip "Triggering audio clip"])) ∧
    (∀ retry_ok, (send_alert true false retry_ok).2 =
        [SendEvent.text, SendEvent.clip "Triggering audio clip",
         SendEvent.clip "Triggering audio clip (retry)"]) ∧
    (send_alert true false true).1 = .ok true ∧
    (send_alert true false false).1 = .error () := by
  refine ⟨?_, ?_, ?_, rfl, rfl⟩
  · intro t c r
    cases t <;> cases c <;> cases r <;> rfl
  · intro r
    cases r <;> rfl
  · intro r
    cases r <;> rfl

/-- C10: whenever `load_control` returns a control, that control is
sanitized: the phase is `phase1` or `phase2`, the interval lies in
`[2, 600]` or is the default `15`, and every override key is in the
returned phase's allowed set with a value of the declared type (unknown
keys and unparsable values have been dropped). -/
theorem C10_load_control_sanitized (st : CalStore) (c : CalibrationControl)
    (h : load_control st = .ok c) :
    (c.phase = "phase1" ∨ c.phase = "phase2") ∧
    ((2 ≤ c.interval_seconds ∧ c.interval_seconds ≤ 600) ∨
      c.interval_seconds = DEFAULT_CALIBRATION_INTERVAL_SECONDS) ∧
    ∀ p ∈ c.overrides, ∃ t, paramSpec c.phase p.1 = some t ∧ valueWT t p.2 = true := by
  obtain ⟨h1, h2, h3, _⟩ := load_control_wf h
  refine ⟨h1, .inl h2, ?_⟩
  intro p hp
  have hw := h3 p hp
  unfold entryWF at hw
  rcases hps : paramSpec c.phase p.1 with _ | t
  · rw [hps] at hw
    simp at hw
  · rw [hps] at hw
    exact ⟨t, rfl, hw⟩

/-- C10 witness: a store with a wrong-case phase, an out-of-range interval,
an unknown override key and a bogus value loads to a sanitized control. -/
theorem C10_load_control_sanitized_witness :
    load_control (.parsed (.dict [("active", .bool true), ("phase", .str " Phase2 "),
        ("interval_seconds", .str "900"),
        ("overrides", .dict [("cat_weight", .str "1.4"), ("bogus", .int 3),
          ("CRY_THRESHOLD", .bool true)])])) =
      .ok ⟨true, "phase2", 600, [("CAT_WEIGHT", .float (1.4 : ℚ))]⟩ ∧
    (("phase2" : String) = "phase1" ∨ ("phase2" : String) = "phase2") ∧
    ((2 ≤ (600 : ℤ) ∧ (600 : ℤ) ≤ 600) ∨
      (600 : ℤ) = DEFAULT_CALIBRATION_INTERVAL_SECONDS) ∧
    ∀ p ∈ ([("CAT_WEIGHT", CalValue.float (1.4 : ℚ))] : List (String × CalValue)),
      ∃ t, paramSpec "phase2" p.1 = some t ∧ valueWT t p.2 = true := by
  have hload : load_control (.parsed (.dict [("active", .bool true), ("phase", .str " Phase2 "),
      ("interval_seconds", .str "900"),
      ("overrides", .dict [("cat_weight", .str "1.4"), ("bogus", .int 3),
        ("CRY_THRESHOLD", .bool true)])])) =
      .ok ⟨true, "phase2", 600, [("CAT_WEIGHT", .float (1.4 : ℚ))]⟩ := by
    with_unfolding_all rfl
  exact ⟨hload, C10_load_control_sanitized _ _ hload⟩

end BabyCry
